import Mathlib

/-!
# Verification of the SandGraph trading-demo decision engine

A shallow embedding, in Lean 4, of the decision-engine code in
`demo/trading_demo.py` (class `LLMDecisionMaker`) and of the shared
LLM-manager code in `sandgraph/core/llm_interface.py`
(`SharedLLMManager`, `HuggingFaceLLM.generate`), together with theorems
settling the testable properties stated in the repository's design
specification.

Modelling conventions:

* Python `dict`s are association lists (`Dict α`), with lookup returning
  the first binding; Python insertion order is list order.
* Python numbers (`float`/`int`) are modelled as `ℚ`.  All constants in
  the programs (0.3, 0.4, 100, ...) are exactly representable, and no
  verified property depends on binary rounding.
* Python exceptions are modelled with `Except`: `Except.error` is a
  raised exception, `Except.ok` a normal return.
* Substring tests (`"kw" in s`), `str.strip`, `str.upper` and the regex
  `\d+(?:\.\d+)?` are implemented over `List Char`.  `upper`/`strip`
  handle the ASCII range (all keywords, symbols and digits used by the
  program are ASCII or Chinese characters, which both functions leave
  unchanged, as Python does).
* Wall-clock values (`datetime.now().isoformat()`, `time.time()`) are
  passed in as explicit inputs.
* The prompt-construction function (`_construct_decision_prompt`) and
  the free-text `reasoning` fields of decisions are pure string
  assembly that no verified property inspects; they are elided from the
  embedding (decisions keep their `action`, `symbol`, `amount` fields).
-/

/-! ## String utilities -/

/-- `isPrefixList p s` : is `p` a prefix of `s`? (char-by-char). -/
def isPrefixList : List Char → List Char → Bool
  | [], _ => true
  | _ :: _, [] => false
  | p :: ps, c :: cs => p = c && isPrefixList ps cs

/-- `containsList s p` : does `p` occur as a contiguous substring of `s`?
Models Python's `p in s`. -/
def containsList (s p : List Char) : Bool :=
  match s with
  | [] => isPrefixList p []
  | _ :: rest => isPrefixList p s || containsList rest p

/-- Python `p in s` on strings. -/
def strContains (s p : String) : Bool :=
  containsList s.data p.data

/-- Python `s.strip()` (ASCII whitespace). -/
def pyStrip (s : String) : String :=
  ⟨((s.data.dropWhile Char.isWhitespace).reverse.dropWhile Char.isWhitespace).reverse⟩

/-- Python `s.upper()` (ASCII letters; other characters unchanged). -/
def pyUpper (s : String) : String :=
  ⟨s.data.map Char.toUpper⟩

/-- Value of a list of decimal digits. -/
def digitsVal (ds : List Char) : ℕ :=
  ds.foldl (fun a c => a * 10 + (c.toNat - 48)) 0

/-- First match of the regex `\d+(?:\.\d+)?` in a character list, as a
rational number: the leftmost maximal digit run, optionally followed by a
dot and a further digit run.  Models
`re.search(r'(\d+(?:\.\d+)?)', s)` + `float(...)`. -/
def firstNumAux : List Char → Option ℚ
  | [] => none
  | c :: rest =>
    if c.isDigit then
      match (c :: rest).dropWhile Char.isDigit with
      | '.' :: r =>
        if (r.takeWhile Char.isDigit).isEmpty then
          some (digitsVal ((c :: rest).takeWhile Char.isDigit) : ℚ)
        else
          some ((digitsVal ((c :: rest).takeWhile Char.isDigit) : ℚ) +
            (digitsVal (r.takeWhile Char.isDigit) : ℚ) /
              ((10 : ℚ) ^ (r.takeWhile Char.isDigit).length))
      | _ => some (digitsVal ((c :: rest).takeWhile Char.isDigit) : ℚ)
    else firstNumAux rest

/-- First numeric substring of a string, if any. -/
def firstNumber (s : String) : Option ℚ :=
  firstNumAux s.data

/-! ## Python dictionaries as association lists -/

/-- A Python `dict` with `String` keys: an association list in insertion
order.  Lookup takes the first binding. -/
abbrev Dict (α : Type) : Type := List (String × α)

/-- `d.get(k)` / `k in d`: first binding for `k`, if any. -/
def dictGet? {α : Type} (d : Dict α) (k : String) : Option α :=
  List.lookup k d

/-- `d.get(k, default)`. -/
def dictGetD {α : Type} (d : Dict α) (k : String) (default : α) : α :=
  (dictGet? d k).getD default

/-- `k in d`. -/
def dictHas {α : Type} (d : Dict α) (k : String) : Bool :=
  (dictGet? d k).isSome

/-- `list(d.keys())` (insertion order). -/
def dictKeys {α : Type} (d : Dict α) : List String :=
  d.map Prod.fst

/-- `d[k] = v`: overwrite in place when the key exists, else append. -/
def dictInsert {α : Type} (d : Dict α) (k : String) (v : α) : Dict α :=
  if dictHas d k then d.map (fun p => if p.1 = k then (k, v) else p)
  else d ++ [(k, v)]

/-- `{**a, **b}`: keys of `a` in order (values overridden by `b` where
both have the key), then the keys of `b` that are not in `a`. -/
def dictMerge {α : Type} (a b : Dict α) : Dict α :=
  a.map (fun p => match dictGet? b p.1 with
           | some v => (p.1, v)
           | none => p)
    ++ b.filter (fun p => ! dictHas a p.1)

/-! ## Data model of the trading demo (`demo/trading_demo.py`) -/

/-- Per-symbol OHLCV record: a field dictionary
(`"open"`, `"high"`, `"low"`, `"close"`, `"volume"`, ...), since the code
accesses fields dynamically and tolerates missing ones. -/
abbrev StockData : Type := Dict ℚ

/-- Per-symbol technical indicators (`"rsi"`, `"ma5"`, `"ma20"`, ...). -/
abbrev Indicators : Type := Dict ℚ

/-- Opaque payload of one entry of `detailed_history`: its internal
structure (summary / analysis / daily table) is only formatted into the
prompt and copied into history records, never inspected by a verified
property. -/
structure DetailedEntry where
  payload : String
deriving DecidableEq, Repr

/-- `state["portfolio"]`: the code reads it with
`portfolio.get("cash", 0)` and `portfolio.get("positions", {})`, so the
two fields with those defaults model it exactly. -/
structure ThePortfolio where
  cash : ℚ := 0
  positions : Dict ℚ := []
deriving DecidableEq, Repr

/-- The state snapshot read by the decision engine.  The engine reads the
keys `market_data`, `portfolio`, `technical_indicators`,
`detailed_history` and `symbols` (each via `.get` with the defaults shown
here); `price_history` and `trade_history` feed only the elided prompt
builder.  `symbols` is `Option`al because its `.get` default
(`["AAPL", "GOOGL", "MSFT", "AMZN"]`) differs from an explicitly empty
list. -/
structure TradingState where
  market_data : Dict StockData := []
  portfolio : ThePortfolio := {}
  technical_indicators : Dict Indicators := []
  detailed_history : Dict DetailedEntry := []
  symbols : Option (List String) := none
deriving DecidableEq, Repr

/-- Default of `state.get("symbols", ["AAPL", "GOOGL", "MSFT", "AMZN"])`. -/
def defaultSymbols : List String := ["AAPL", "GOOGL", "MSFT", "AMZN"]

/-- `state.get("symbols", ["AAPL", "GOOGL", "MSFT", "AMZN"])`. -/
def getSymbols (st : TradingState) : List String :=
  st.symbols.getD defaultSymbols

/-- A structured trading action (the free-text `reasoning` field is
elided, see the header). -/
structure Decision where
  action : String
  symbol : String
  amount : ℚ
deriving DecidableEq, Repr

example : strContains "SELL AAPL 50" "AAPL" = true := by decide
example : strContains "hello" "卖出" = false := by decide
example : firstNumber "buy 12.5 shares" = some (25 / 2) := by
  simp +decide [firstNumber, firstNumAux, digitsVal]
  norm_num
example : firstNumber "no number" = none := by decide
example : pyStrip "  hi " = "hi" := by decide
example : pyUpper "buy aapl" = "BUY AAPL" := by decide

/-! ## Response parsing (`LLMDecisionMaker._parse_decision`, lines 333-497) -/

/-- Amount extraction shared by the four keyword branches:
`re.search(r'(\d+(?:\.\d+)?)', response)` on the stripped response,
defaulting to 100 when no number occurs. -/
def amountIn (resp : String) : ℚ :=
  (firstNumber resp).getD 100

/-- One keyword branch of `_parse_decision`: if `kw` occurs in
`searchIn`, return the action `act` for the first configured symbol
occurring in `searchIn` (the loop `for symbol in symbols: ...` returns on
the first hit, so the first-listed symbol wins).  When the keyword is
absent, or no symbol matches, the branch falls through (`none`).  The
Chinese-keyword branches search the stripped response itself, the
English-token branches its upper-casing; the amount always comes from the
stripped response. -/
def kwBranch (searchIn resp : String) (symbols : List String) (kw act : String) :
    Option Decision :=
  if strContains searchIn kw then
    (symbols.find? (fun sym => strContains searchIn sym)).map
      (fun sym => { action := act, symbol := sym, amount := amountIn resp })
  else none

/-- Buy score of one symbol (`_parse_decision` lines 425-433,
`_fallback_decision` lines 530-537): RSI below 70 contributes 0.3, MA5
above MA20 contributes 0.4, and when both moving averages are positive
the normalised MA gap contributes `min 0.3 ((ma5 - ma20) / ma20 * 10)`. -/
def buyScore (rsi ma5 ma20 : ℚ) : ℚ :=
  (if rsi < 70 then 3/10 else 0) + (if ma5 > ma20 then 4/10 else 0) +
    (if ma5 > 0 ∧ ma20 > 0 then min (3/10) ((ma5 - ma20) / ma20 * 10) else 0)

/-- Sell score of one symbol: the mirrored conditions (RSI above 30, MA5
below MA20, gap `(ma20 - ma5) / ma20`). -/
def sellScore (rsi ma5 ma20 : ℚ) : ℚ :=
  (if rsi > 30 then 3/10 else 0) + (if ma5 < ma20 then 4/10 else 0) +
    (if ma5 > 0 ∧ ma20 > 0 then min (3/10) ((ma20 - ma5) / ma20 * 10) else 0)

/-- Accumulator of the best-buy / best-sell scan; the source initialises
both scores to -1 and both symbols to `None`. -/
structure ScoreAcc where
  bestBuyScore : ℚ := -1
  bestBuySymbol : Option String := none
  bestSellScore : ℚ := -1
  bestSellSymbol : Option String := none
deriving DecidableEq, Repr

/-- `if buy_score > best_buy_score:` — a strictly greater buy score
replaces the incumbent, so on ties the earlier symbol is kept. -/
def ScoreAcc.updateBuy (acc : ScoreAcc) (sym : String) (buy : ℚ) : ScoreAcc :=
  if buy > acc.bestBuyScore then
    { acc with bestBuyScore := buy, bestBuySymbol := some sym }
  else acc

/-- `if sell_score > best_sell_score:`, likewise. -/
def ScoreAcc.updateSell (acc : ScoreAcc) (sym : String) (sell : ℚ) : ScoreAcc :=
  if sell > acc.bestSellScore then
    { acc with bestSellScore := sell, bestSellSymbol := some sym }
  else acc

/-- Score update for one symbol: the two sequential replacements of the
source (buy first, then sell). -/
def ScoreAcc.update (acc : ScoreAcc) (sym : String) (buy sell : ℚ) : ScoreAcc :=
  (acc.updateBuy sym buy).updateSell sym sell

/-- `state.get("technical_indicators", {}).get(symbol, {})` followed by
`.get("rsi", 50)`, `.get("ma5", 0)`, `.get("ma20", 0)`. -/
def indicatorTriple (st : TradingState) (sym : String) : ℚ × ℚ × ℚ :=
  (dictGetD (dictGetD st.technical_indicators sym []) "rsi" 50,
   dictGetD (dictGetD st.technical_indicators sym []) "ma5" 0,
   dictGetD (dictGetD st.technical_indicators sym []) "ma20" 0)

/-- The (buy score, sell score) pair of one symbol, from its indicator
triple. -/
def symScores (st : TradingState) (sym : String) : ℚ × ℚ :=
  (buyScore (indicatorTriple st sym).1 (indicatorTriple st sym).2.1
     (indicatorTriple st sym).2.2,
   sellScore (indicatorTriple st sym).1 (indicatorTriple st sym).2.1
     (indicatorTriple st sym).2.2)

/-- Invariant of the best-score scan (used by the record
well-formedness proofs): a `none` best symbol still carries the initial
score -1, and a `some` best symbol lies in `S`. -/
def ScoreInv (S : List String) (acc : ScoreAcc) : Prop :=
  (acc.bestBuySymbol = Option.none → acc.bestBuyScore = -1) ∧
  (∀ x, acc.bestBuySymbol = some x → x ∈ S) ∧
  (acc.bestSellSymbol = Option.none → acc.bestSellScore = -1) ∧
  (∀ x, acc.bestSellSymbol = some x → x ∈ S)

/-- The scan of `_parse_decision` step 3 over the configured symbols
(lines 414-452).  Only symbols present in `market_data` are scored.  The
source reads `price = market_data[symbol]["close"]` with plain indexing
(line 423): scoring a symbol whose market record has no `"close"` field
raises `KeyError`, modelled as `Except.error` (`price` is otherwise
unused). -/
def parseScoreLoop (st : TradingState) : List String → ScoreAcc → Except Unit ScoreAcc
  | [], acc => .ok acc
  | sym :: rest, acc =>
    match dictGet? st.market_data sym with
    | none => parseScoreLoop st rest acc
    | some sd =>
      match dictGet? sd "close" with
      | none => .error ()
      | some _ =>
        parseScoreLoop st rest
          (acc.update sym (symScores st sym).1 (symScores st sym).2)

/-- Python `max(xs, key=f)` on a list of symbols: the first element whose
key is maximal (later elements replace the incumbent only when strictly
greater).  Python raises `ValueError` on an empty sequence; every call
site below guarantees nonemptiness, so the `[]` case is arbitrary. -/
def pyMaxBy (xs : List String) (f : String → ℚ) : String :=
  match xs with
  | [] => ""
  | x :: rest => rest.foldl (fun best y => if f y > f best then y else best) x

/-- `market_data[s].get("close", 0) - market_data[s].get("open", 0)`, the
key function of the momentum fallback (lines 473-474 and 575-576); `s`
always ranges over the keys of `market_data` there. -/
def closeMinusOpen (md : Dict StockData) (sym : String) : ℚ :=
  dictGetD (dictGetD md sym []) "close" 0 - dictGetD (dictGetD md sym []) "open" 0

/-- `LLMDecisionMaker._parse_decision` (lines 333-497): the total
priority cascade from raw response text to a structured action —
Chinese buy keyword, Chinese sell keyword, English BUY token, English
SELL token (each co-occurring with a configured symbol), then the
indicator-scoring scan, then momentum / first-symbol / hardcoded-AAPL
fallbacks.  `Except.error` models the one uncaught exception the source
can raise (the `KeyError` of `parseScoreLoop`). -/
def _parse_decision (response0 : String) (st : TradingState) : Except Unit Decision :=
  let resp := pyStrip response0
  let symbols := getSymbols st
  let md := st.market_data
  let up := pyUpper resp
  match kwBranch resp resp symbols "买入" "BUY" with
  | some d => .ok d
  | none =>
  match kwBranch resp resp symbols "卖出" "SELL" with
  | some d => .ok d
  | none =>
  match kwBranch up resp symbols "BUY" "BUY" with
  | some d => .ok d
  | none =>
  match kwBranch up resp symbols "SELL" "SELL" with
  | some d => .ok d
  | none =>
  if md.isEmpty then
    match symbols with
    | s0 :: _ => .ok { action := "BUY", symbol := s0, amount := 100 }
    | [] => .ok { action := "BUY", symbol := "AAPL", amount := 100 }
  else
    match parseScoreLoop st symbols {} with
    | .error e => .error e
    | .ok acc =>
      if acc.bestBuyScore > acc.bestSellScore ∧ acc.bestBuyScore > 3/10 then
        .ok { action := "BUY", symbol := acc.bestBuySymbol.getD "", amount := 100 }
      else if acc.bestSellScore > 3/10 then
        .ok { action := "SELL", symbol := acc.bestSellSymbol.getD "", amount := 100 }
      else
        .ok { action := "BUY", symbol := pyMaxBy (dictKeys md) (closeMinusOpen md),
              amount := 100 }

/-! ## Fallback decision (`LLMDecisionMaker._fallback_decision`, lines 499-590) -/

/-- The scan of `_fallback_decision` over the market-data keys
(lines 521-556): every key is scored; no market field is read inside the
loop, so it cannot raise. -/
def fallbackScoreLoop (st : TradingState) : List String → ScoreAcc → ScoreAcc
  | [], acc => acc
  | sym :: rest, acc =>
    fallbackScoreLoop st rest
      (acc.update sym (symScores st sym).1 (symScores st sym).2)

/-- `LLMDecisionMaker._fallback_decision` (lines 499-590): the rule-based
decision taken when the generation call raised.  `Except.error` models
the `IndexError` the source raises at `symbols[0]` (line 507) when the
state carries an explicitly empty symbol list and no market data.  The
final hardcoded-AAPL return (line 585) is reached only when the key list
of a nonempty `market_data` is empty, which cannot happen; it is kept for
fidelity. -/
def _fallback_decision (st : TradingState) : Except Unit Decision :=
  if st.market_data.isEmpty then
    match getSymbols st with
    | s0 :: _ => .ok { action := "BUY", symbol := s0, amount := 100 }
    | [] => .error ()
  else
    match dictKeys st.market_data with
    | [] => .ok { action := "BUY", symbol := "AAPL", amount := 100 }
    | s0 :: rest =>
      let acc := fallbackScoreLoop st (s0 :: rest) {}
      if acc.bestBuyScore > acc.bestSellScore ∧ acc.bestBuyScore > 3/10 then
        .ok { action := "BUY", symbol := acc.bestBuySymbol.getD "", amount := 100 }
      else if acc.bestSellScore > 3/10 then
        .ok { action := "SELL", symbol := acc.bestSellSymbol.getD "", amount := 100 }
      else
        .ok { action := "BUY",
              symbol := pyMaxBy (s0 :: rest) (closeMinusOpen st.market_data),
              amount := 100 }

/-! ## History records and `_update_history` (lines 103-142) -/

/-- One entry of `self.decision_history` (lines 106-115). -/
structure DecisionRecord where
  step : ℕ
  timestamp : String
  decision : Decision
  llm_response : String
  market_data : Dict StockData
  portfolio : ThePortfolio
  technical_indicators : Dict Indicators
  detailed_history : Dict DetailedEntry
deriving DecidableEq, Repr

/-- One entry of `self.market_history` (lines 123-127). -/
structure MarketRecord where
  step : ℕ
  market_data : Dict StockData
  detailed_history : Dict DetailedEntry
deriving DecidableEq, Repr

/-- One entry of `self.portfolio_history` (lines 131-135). -/
structure PortfolioRecord where
  step : ℕ
  portfolio : ThePortfolio
  total_value : ℚ
deriving DecidableEq, Repr

/-- `LLMDecisionMaker._calculate_total_portfolio_value` (lines 144-157):
cash plus, for every held position whose symbol appears in `market_data`
with a `"close"` field, quantity times close price. -/
def _calculate_total_portfolio_value (st : TradingState) : ℚ :=
  let position_value :=
    st.portfolio.positions.foldl
      (fun acc p =>
        match dictGet? st.market_data p.1 with
        | some sd =>
          match dictGet? sd "close" with
          | some c => acc + p.2 * c
          | none => acc
        | none => acc) 0
  st.portfolio.cash + position_value

/-- The mutable per-instance state of one `LLMDecisionMaker`
(constructor, lines 43-51; `performance_history` is never touched by the
code and is omitted). -/
structure EngineState where
  decision_count : ℕ := 0
  decision_history : List DecisionRecord := []
  market_history : List MarketRecord := []
  portfolio_history : List PortfolioRecord := []
deriving DecidableEq, Repr

/-- Python `xs[-n:]` for `n > 0`: the last `n` elements. -/
def lastN {α : Type} (n : ℕ) (xs : List α) : List α :=
  xs.drop (xs.length - n)

/-- The source's trim `if len(h) > cap: h = h[-cap:]`.  (Since `Nat`
subtraction truncates at zero this equals `lastN cap` unconditionally,
but the literal guard is kept.) -/
def trimTo {α : Type} (cap : ℕ) (xs : List α) : List α :=
  if xs.length > cap then lastN cap xs else xs

/-- The decision record built at lines 106-115 (with the wall-clock
`datetime.now().isoformat()` passed in as `ts`). -/
def mkDecisionRecord (step : ℕ) (ts : String) (st : TradingState) (d : Decision)
    (resp : String) : DecisionRecord :=
  { step := step, timestamp := ts, decision := d, llm_response := resp,
    market_data := st.market_data, portfolio := st.portfolio,
    technical_indicators := st.technical_indicators,
    detailed_history := st.detailed_history }

/-- The market record built at lines 123-127. -/
def mkMarketRecord (step : ℕ) (st : TradingState) : MarketRecord :=
  { step := step, market_data := st.market_data,
    detailed_history := st.detailed_history }

/-- The portfolio record built at lines 131-135. -/
def mkPortfolioRecord (step : ℕ) (st : TradingState) : PortfolioRecord :=
  { step := step, portfolio := st.portfolio,
    total_value := _calculate_total_portfolio_value st }

/-- `LLMDecisionMaker._update_history` (lines 103-142): append one record
to each history, then trim the decision history to its last 50 entries
and the market and portfolio histories to their last 30. -/
def _update_history (E : EngineState) (st : TradingState) (d : Decision)
    (resp ts : String) : EngineState :=
  { E with
    decision_history :=
      trimTo 50 (E.decision_history ++ [mkDecisionRecord E.decision_count ts st d resp]),
    market_history :=
      trimTo 30 (E.market_history ++ [mkMarketRecord E.decision_count st]),
    portfolio_history :=
      trimTo 30 (E.portfolio_history ++ [mkPortfolioRecord E.decision_count st]) }

/-! ## `LLMDecisionMaker.make_decision` (lines 61-101) -/

/-- Result of one `make_decision` call.  On the normal path the source
returns the wrapper dict `{"decision", "llm_response", "prompt",
"decision_count"}`; on the fallback path it returns the bare decision
dict.  The prompt entry (pure string assembly, elided, see header) is
omitted. -/
inductive MakeDecisionResult where
  | normal (decision : Decision) (llm_response : String) (decision_count : ℕ)
  | fallback (decision : Decision)
deriving DecidableEq, Repr

/-- The structured action carried by either result shape. -/
def MakeDecisionResult.decision : MakeDecisionResult → Decision
  | .normal d _ _ => d
  | .fallback d => d

deriving instance DecidableEq for Except

/-- Outcome of the external generation call
`llm_manager.generate_for_node(...)`: a raised exception
(`Except.error`, carrying its message) or the returned response text. -/
abbrev GenOutcome : Type := Except String String

/-- `LLMDecisionMaker.make_decision` (lines 61-101): increment the
decision counter; if the generation call raised, return
`_fallback_decision` directly (no history update); otherwise parse the
response text, update the three histories, and return the wrapper
result.  The outer `Except.error` propagates the uncaught exceptions of
`_fallback_decision` / `_parse_decision`. -/
def make_decision (E : EngineState) (st : TradingState) (gen : GenOutcome)
    (ts : String) : Except Unit (MakeDecisionResult × EngineState) :=
  let E1 := { E with decision_count := E.decision_count + 1 }
  match gen with
  | .error _ =>
    match _fallback_decision st with
    | .error e => .error e
    | .ok d => .ok (.fallback d, E1)
  | .ok text =>
    match _parse_decision text st with
    | .error e => .error e
    | .ok d =>
      .ok (.normal d text E1.decision_count, _update_history E1 st d text ts)

/-- The per-call inputs of one `make_decision` invocation: the state
snapshot, the generation outcome, and the record timestamp. -/
structure CallInput where
  state : TradingState
  gen : GenOutcome
  ts : String
deriving DecidableEq, Repr

/-- A sequence of `make_decision` calls on one engine instance,
propagating any uncaught exception. -/
def runCalls (E : EngineState) : List CallInput → Except Unit EngineState
  | [] => .ok E
  | c :: cs =>
    match make_decision E c.state c.gen c.ts with
    | .error e => .error e
    | .ok (_, E1) => runCalls E1 cs

/-! ## Specification-side view of the history buffers

The design spec describes each buffer as "the last min(N, cap) appended
records in call order".  `SpecTrace` recomputes, for a call sequence, the
full unbounded lists of records appended by the calls (a fallback call
appends nothing); the buffer theorems relate the engine state to the
`lastN`-capped views of these lists. -/

/-- Unbounded record trace of a call sequence. -/
structure SpecTrace where
  count : ℕ := 0
  decRecords : List DecisionRecord := []
  mktRecords : List MarketRecord := []
  pfRecords : List PortfolioRecord := []
deriving DecidableEq, Repr

/-- One call of the spec-side recorder: mirror `make_decision`, but
collect the appended records without trimming. -/
def specStep (t : SpecTrace) (c : CallInput) : Except Unit SpecTrace :=
  let n := t.count + 1
  match c.gen with
  | .error _ =>
    match _fallback_decision c.state with
    | .error e => .error e
    | .ok _ => .ok { t with count := n }
  | .ok text =>
    match _parse_decision text c.state with
    | .error e => .error e
    | .ok d =>
      .ok { count := n,
            decRecords := t.decRecords ++ [mkDecisionRecord n c.ts c.state d text],
            mktRecords := t.mktRecords ++ [mkMarketRecord n c.state],
            pfRecords := t.pfRecords ++ [mkPortfolioRecord n c.state] }

/-- The spec-side recorder over a call sequence. -/
def specRun (t : SpecTrace) : List CallInput → Except Unit SpecTrace
  | [] => .ok t
  | c :: cs =>
    match specStep t c with
    | .error e => .error e
    | .ok t1 => specRun t1 cs

/-- The engine state a spec trace determines: the counter and the
`lastN`-capped views of the appended-record lists. -/
def SpecTrace.toEngine (t : SpecTrace) : EngineState :=
  { decision_count := t.count,
    decision_history := lastN 50 t.decRecords,
    market_history := lastN 30 t.mktRecords,
    portfolio_history := lastN 30 t.pfRecords }

/-! ## `SharedLLMManager` (`sandgraph/core/llm_interface.py`, lines 681-787) -/

/-- A Python keyword-argument / configuration / metadata value. -/
inductive PVal where
  | num (q : ℚ)
  | str (s : String)
  | bool (b : Bool)
  | none
deriving DecidableEq, Repr

/-- The dataclass `LLMResponse` (lines 39-49). -/
structure LLMResponse where
  text : String
  confidence : ℚ := 0
  reasoning : String := ""
  metadata : Dict PVal := []
deriving DecidableEq, Repr

/-- Usage statistics kept per registered node (lines 706-710). -/
structure NodeStats where
  generation_count : ℕ := 0
  last_used : Option ℚ := Option.none
  total_tokens : ℕ := 0
deriving DecidableEq, Repr

/-- `SharedLLMManager` state (lines 684-694): registered node configs
(with their `registered_time`, a `time.time()` value passed in as input),
per-node usage statistics, and the global counters. -/
structure SharedLLMManager where
  registered_nodes : Dict (Dict PVal × ℚ) := []
  node_usage_stats : Dict NodeStats := []
  total_generations : ℕ := 0
  total_updates : ℕ := 0
deriving DecidableEq, Repr

/-- `SharedLLMManager.register_node` (lines 696-711): store the config
(default `{}`) with the registration time and reset the node's usage
statistics. -/
def register_node (m : SharedLLMManager) (node_id : String)
    (node_config : Option (Dict PVal)) (now : ℚ) : SharedLLMManager :=
  { m with
    registered_nodes :=
      dictInsert m.registered_nodes node_id (node_config.getD [], now),
    node_usage_stats := dictInsert m.node_usage_stats node_id {} }

/-- `len(s.split())`: the number of maximal nonempty
whitespace-separated chunks of `s`. -/
def wordCount (s : String) : ℕ :=
  (s.data.foldl
    (fun (acc : ℕ × Bool) c =>
      if c.isWhitespace then (acc.1, false)
      else if acc.2 then acc else (acc.1 + 1, true))
    (0, false)).1

/-- Lines 732-735: tag the node id and the global generation count onto
the response metadata — only when the metadata dict is truthy (nonempty),
matching `if response.metadata:`. -/
def addNodeInfo (r : LLMResponse) (node_id : String) (total : ℕ) : LLMResponse :=
  if r.metadata.isEmpty then r
  else
    { r with metadata :=
        (dictInsert (dictInsert r.metadata "node_id" (.str node_id))
          "global_generation_count" (.num (total : ℚ))) }

/-- `SharedLLMManager.generate_for_node` (lines 713-737).  The underlying
`self.llm.generate` is passed in as the function `llm` (from prompt and
merged keyword arguments to a response); `now` models `time.time()`.
Raises (`Except.error`) exactly on an unregistered node id; otherwise the
LLM is called with `{**node_config, **kwargs}` and the usage statistics
and global counter are updated. -/
def generate_for_node (llm : String → Dict PVal → LLMResponse)
    (m : SharedLLMManager) (node_id prompt : String) (kwargs : Dict PVal)
    (now : ℚ) : Except String (LLMResponse × SharedLLMManager) :=
  match dictGet? m.registered_nodes node_id with
  | Option.none => .error ("节点 " ++ node_id ++ " 未注册")
  | some entry =>
    let node_config := entry.1
    let merged_kwargs := dictMerge node_config kwargs
    let response := llm prompt merged_kwargs
    let stats := (dictGet? m.node_usage_stats node_id).getD {}
    let stats1 : NodeStats :=
      { generation_count := stats.generation_count + 1,
        last_used := some now,
        total_tokens := stats.total_tokens + wordCount response.text }
    let m1 := { m with
      node_usage_stats := dictInsert m.node_usage_stats node_id stats1,
      total_generations := m.total_generations + 1 }
    .ok (addNodeInfo response node_id m1.total_generations, m1)

/-! ## `HuggingFaceLLM.generate` (`llm_interface.py`, lines 343-508) -/

/-- The `LLMConfig` fields read by `generate` (lines 52-77, defaults as
in the dataclass). -/
structure HFConfig where
  temperature : ℚ := 7/10
  max_length : ℕ := 512
  top_p : ℚ := 9/10
  top_k : ℕ := 50
  do_sample : Bool := true
  use_cache : Bool := true
deriving DecidableEq, Repr

/-- External-world oracle for one `HuggingFaceLLM.generate` call: the
behaviour of torch / transformers is modelled by explicit outcome
functions, `Except.error e` meaning that step raised an exception with
message `e`.

* `load_ok` / `load_err`: whether `self.load_model()` would succeed; on
  failure it logs and re-raises (lines 318-320).
* `tokenize`: `self.tokenizer.encode(...)` (line 380), returning the
  token count `inputs.shape[1]`.
* `modelGenerate`: `inputs.to(self.device)` plus
  `self.model.generate(inputs, **generation_kwargs)` (lines 411-433),
  returning the output shape `(outputs.shape[0], outputs.shape[1])`.
* `decode`: `self.tokenizer.decode(outputs[0], ...)` (line 452).
* `gen_time` models the measured wall-clock generation time. -/
structure HFEnv where
  backend : String := "huggingface"
  model_name : String := "Qwen/Qwen-7B-Chat"
  device : String := "cpu"
  model_loaded : Bool
  load_ok : Bool := true
  load_err : String := ""
  config : HFConfig := {}
  eos_token_id : PVal := PVal.none
  tokenize : String → Except String ℕ
  modelGenerate : ℕ → Dict PVal → Except String (ℕ × ℕ)
  decode : Except String String
  update_count : ℕ := 0
  generation_count : ℕ := 0
  gen_time : ℚ := 0

/-- The error-response pattern of `generate`: confidence 0.0, a
human-readable failure text, the reason, and the exception message
recorded in metadata (lines 354-363, 383-392, 396-405, 439-448, 455-464,
499-508). -/
def hfErrResponse (backend text reasoning err : String) (gc : ℕ) : LLMResponse :=
  { text := text, confidence := 0, reasoning := reasoning,
    metadata := [("backend", .str backend), ("error", .str err),
                 ("generation_count", .num (gc : ℚ))] }

/-- Lines 376-378: a prompt longer than `1024 * 4` characters is cut to
its first 4096 characters before tokenization. -/
def hfTruncate (prompt : String) : String :=
  if prompt.data.length > 1024 * 4 then ⟨prompt.data.take (1024 * 4)⟩ else prompt

/-- `min(kwargs["max_length"], inputs.shape[1] + 256)` (line 427); the
program only ever passes a numeric `max_length`, so a non-numeric value
is kept unchanged. -/
def pvMinNum (v : PVal) (b : ℚ) : PVal :=
  match v with
  | .num q => .num (min q b)
  | other => other

/-- The `generation_kwargs` dict built at lines 413-428, from the
per-call keyword arguments merged over the configuration defaults
(lines 365-370). -/
def hfGenerationKwargs (env : HFEnv) (kwargs : Dict PVal) (ntok : ℕ) : Dict PVal :=
  let base : Dict PVal :=
    [("max_new_tokens", dictGetD kwargs "max_new_tokens" (.num 128)),
     ("temperature", dictGetD kwargs "temperature" (.num env.config.temperature)),
     ("top_p", dictGetD kwargs "top_p" (.num env.config.top_p)),
     ("top_k", dictGetD kwargs "top_k" (.num (env.config.top_k : ℚ))),
     ("do_sample", dictGetD kwargs "do_sample" (.bool env.config.do_sample)),
     ("use_cache", .bool env.config.use_cache),
     ("pad_token_id", env.eos_token_id),
     ("eos_token_id", env.eos_token_id)]
  match dictGet? kwargs "max_length" with
  | some v => base ++ [("max_length", pvMinNum v ((ntok : ℚ) + 256))]
  | Option.none => base

/-- `HuggingFaceLLM.generate` (lines 343-508).  The step before the `try`
block — `if not self.model_loaded: self.load_model()` (lines 345-346) —
is NOT protected: a loading failure re-raises and propagates to the
caller, modelled by the initial `Except.error`.  Inside the `try`, every
failure is converted into an `LLMResponse` with confidence 0 (the
success-path `reasoning` string has its numeric formatting elided, see
the header). -/
def hfGenerate (env : HFEnv) (prompt : String) (kwargs : Dict PVal) :
    Except String LLMResponse :=
  if env.model_loaded = false ∧ env.load_ok = false then .error env.load_err
  else
    let gc := env.generation_count + 1
    if pyStrip prompt = "" then
      .ok (hfErrResponse env.backend "输入为空，无法生成响应" "输入验证失败"
            "Empty input" gc)
    else
      let prompt1 := hfTruncate prompt
      match env.tokenize prompt1 with
      | .error e =>
        .ok (hfErrResponse env.backend "输入处理失败，请尝试简化输入"
              "Tokenization error" e gc)
      | .ok ntok =>
        if ntok = 0 then
          .ok (hfErrResponse env.backend "输入tokenization失败"
                "Tokenization error" "Empty tokenization result" gc)
        else
          match env.modelGenerate ntok (hfGenerationKwargs env kwargs ntok) with
          | .error e =>
            .ok (hfErrResponse env.backend ("生成失败: " ++ e)
                  "生成过程中出现错误" e gc)
          | .ok (rows, cols) =>
            if rows = 0 ∨ cols = 0 then
              .ok (hfErrResponse env.backend "模型生成失败，输出为空"
                    "Generation failed" "Empty generation output" gc)
            else
              match env.decode with
              | .error e =>
                .ok (hfErrResponse env.backend "响应解码失败" "Decoding error" e gc)
              | .ok generated =>
                let rt0 := pyStrip generated
                let response_text :=
                  if rt0 = "" then
                    "Based on the current situation, I recommend a cautious approach."
                  else rt0
                .ok { text := response_text,
                      confidence := min (19/20 : ℚ)
                        (7/10 + (env.update_count : ℚ) * (1/100)),
                      reasoning := "使用" ++ env.backend ++ "模型进行文本生成",
                      metadata :=
                        [("backend", .str env.backend),
                         ("model_name", .str env.model_name),
                         ("generation_count", .num (gc : ℚ)),
                         ("generation_time", .num env.gen_time),
                         ("temperature",
                           dictGetD kwargs "temperature"
                             (.num env.config.temperature)),
                         ("max_length",
                           dictGetD kwargs "max_length"
                             (.num (env.config.max_length : ℚ))),
                         ("prompt_length", .num (prompt1.data.length : ℚ)),
                         ("response_length", .num (response_text.data.length : ℚ)),
                         ("device", .str env.device)] }

/-- Does a call take one of the internal failure paths that `generate`
converts into an error response?  (The cascade of `hfGenerate`,
flattened.) -/
def hfFailurePath (env : HFEnv) (prompt : String) (kwargs : Dict PVal) : Bool :=
  if pyStrip prompt = "" then true
  else
    match env.tokenize (hfTruncate prompt) with
    | .error _ => true
    | .ok ntok =>
      if ntok = 0 then true
      else
        match env.modelGenerate ntok (hfGenerationKwargs env kwargs ntok) with
        | .error _ => true
        | .ok (rows, cols) =>
          if rows = 0 ∨ cols = 0 then true
          else
            match env.decode with
            | .error _ => true
            | .ok _ => false

/-! ## Concrete fixtures used by the claim witnesses -/

/-- One successful generation call from the default state, with response
text `"BUY AAPL 100 shares"`. -/
def succCall : CallInput :=
  { state := {}, gen := .ok "BUY AAPL 100 shares", ts := "t0" }

/-- The engine state after `succCall` on a fresh engine. -/
def succEngine : EngineState :=
  { decision_count := 1,
    decision_history :=
      [{ step := 1, timestamp := "t0",
         decision := { action := "BUY", symbol := "AAPL", amount := 100 },
         llm_response := "BUY AAPL 100 shares", market_data := [], portfolio := {},
         technical_indicators := [], detailed_history := [] }],
    market_history := [{ step := 1, market_data := [], detailed_history := [] }],
    portfolio_history := [{ step := 1, portfolio := {}, total_value := 0 }] }

/-- A manager with one registered node (string-valued config, so witness
checks stay purely structural). -/
def mgrW : SharedLLMManager :=
  { registered_nodes :=
      [("trading_decision",
        ([("role", PVal.str "expert"), ("temperature", PVal.str "from-config")], 0))],
    node_usage_stats := [("trading_decision", {})] }

/-- An LLM stub echoing the prompt. -/
def llmW : String → Dict PVal → LLMResponse :=
  fun prompt _ => { text := prompt, metadata := [] }

/-- A loaded HuggingFace environment whose tokenizer raises. -/
def hfEnvTokErr : HFEnv :=
  { model_loaded := true,
    tokenize := fun _ => .error "tokenizer exploded",
    modelGenerate := fun _ _ => .ok (1, 1),
    decode := .ok "decoded" }

/-- An unloaded HuggingFace environment whose `load_model()` raises. -/
def hfEnvLoadErr : HFEnv :=
  { model_loaded := false, load_ok := false,
    load_err := "OSError: model files missing",
    tokenize := fun _ => .ok 1,
    modelGenerate := fun _ _ => .ok (1, 1),
    decode := .ok "decoded" }

/-! # Theorems

First the shared helper lemmas, then one theorem (with counterexample /
witness where applicable) per specification claim. -/

/-! ## Lemmas about `lastN` and `trimTo` -/

theorem lastN_length {α : Type} (n : ℕ) (xs : List α) :
    (lastN n xs).length = min xs.length n := by
  simp only [lastN, List.length_drop]
  omega

theorem trimTo_eq_lastN {α : Type} (cap : ℕ) (xs : List α) :
    trimTo cap xs = lastN cap xs := by
  unfold trimTo lastN
  split
  · rfl
  · next h =>
    have hz : xs.length - cap = 0 := by omega
    rw [hz, List.drop_zero]

theorem lastN_lastN {α : Type} {m n : ℕ} (h : m ≤ n) (xs : List α) :
    lastN m (lastN n xs) = lastN m xs := by
  unfold lastN
  rw [List.drop_drop]
  congr 1
  simp only [List.length_drop]
  omega

theorem lastN_append_one {α : Type} {n : ℕ} (h : 1 ≤ n) (xs : List α) (r : α) :
    lastN n (xs ++ [r]) = lastN (n - 1) xs ++ [r] := by
  unfold lastN
  rw [List.drop_append_eq_append_drop]
  have h2 : (xs ++ [r]).length - n = xs.length + 1 - n := by simp
  have h3 : xs.length + 1 - n - xs.length = 0 := by omega
  have h4 : xs.length + 1 - n = xs.length - (n - 1) := by omega
  rw [h2, h3, h4, List.drop_zero]

theorem lastN_trim_append {α : Type} {n : ℕ} (h : 1 ≤ n) (xs : List α) (r : α) :
    lastN n (lastN n xs ++ [r]) = lastN n (xs ++ [r]) := by
  rw [lastN_append_one h, lastN_append_one h, lastN_lastN (by omega)]

theorem mem_of_mem_lastN {α : Type} {n : ℕ} {xs : List α} {a : α}
    (h : a ∈ lastN n xs) : a ∈ xs :=
  List.mem_of_mem_drop h

/-! ## Bridge between the engine state and the spec-side trace -/

theorem toEngine_count (t : SpecTrace) (n : ℕ) :
    SpecTrace.toEngine { t with count := n } =
      { t.toEngine with decision_count := n } := rfl

theorem toEngine_decision_count (t : SpecTrace) :
    t.toEngine.decision_count = t.count := rfl

theorem update_history_toEngine (t : SpecTrace) (st : TradingState) (d : Decision)
    (resp ts : String) :
    _update_history { t.toEngine with decision_count := t.count + 1 } st d resp ts =
      SpecTrace.toEngine
        { count := t.count + 1,
          decRecords := t.decRecords ++ [mkDecisionRecord (t.count + 1) ts st d resp],
          mktRecords := t.mktRecords ++ [mkMarketRecord (t.count + 1) st],
          pfRecords := t.pfRecords ++ [mkPortfolioRecord (t.count + 1) st] } := by
  unfold _update_history SpecTrace.toEngine
  simp only [trimTo_eq_lastN]
  rw [lastN_trim_append (by omega), lastN_trim_append (by omega),
    lastN_trim_append (by omega)]

theorem make_decision_spec_error (t : SpecTrace) (c : CallInput)
    (h : specStep t c = .error ()) :
    make_decision t.toEngine c.state c.gen c.ts = .error () := by
  unfold specStep at h
  unfold make_decision
  cases hg : c.gen with
  | error msg =>
    rw [hg] at h
    simp only at h
    cases hf : _fallback_decision c.state with
    | error e' => simp [hf]
    | ok d => rw [hf] at h; simp at h
  | ok text =>
    rw [hg] at h
    simp only at h
    cases hp : _parse_decision text c.state with
    | error e' => simp [hp]
    | ok d => rw [hp] at h; simp at h

theorem make_decision_spec_ok (t : SpecTrace) (c : CallInput) (t1 : SpecTrace)
    (h : specStep t c = .ok t1) :
    ∃ r, make_decision t.toEngine c.state c.gen c.ts = .ok (r, t1.toEngine) := by
  unfold specStep at h
  unfold make_decision
  cases hg : c.gen with
  | error msg =>
    rw [hg] at h
    simp only at h
    cases hf : _fallback_decision c.state with
    | error e' => rw [hf] at h; simp at h
    | ok d =>
      rw [hf] at h
      simp only [Except.ok.injEq] at h
      refine ⟨.fallback d, ?_⟩
      simp only [hf, ← h, toEngine_count, toEngine_decision_count]
  | ok text =>
    rw [hg] at h
    simp only at h
    cases hp : _parse_decision text c.state with
    | error e' => rw [hp] at h; simp at h
    | ok d =>
      rw [hp] at h
      simp only [Except.ok.injEq] at h
      refine ⟨.normal d text (t.count + 1), ?_⟩
      rw [← h]
      simp only [hp, toEngine_decision_count, update_history_toEngine]

theorem runCalls_toEngine (cs : List CallInput) (t : SpecTrace) :
    runCalls t.toEngine cs = (specRun t cs).map SpecTrace.toEngine := by
  induction cs generalizing t with
  | nil => rfl
  | cons c cs ih =>
    unfold runCalls specRun
    cases hs : specStep t c with
    | error e =>
      cases e
      rw [make_decision_spec_error t c hs]
      rfl
    | ok t1 =>
      obtain ⟨r, hr⟩ := make_decision_spec_ok t c t1 hs
      rw [hr]
      exact ih t1

/-! ## Shared concrete evaluations -/

theorem eval_succCall :
    make_decision {} succCall.state succCall.gen succCall.ts =
      .ok (.normal { action := "BUY", symbol := "AAPL", amount := 100 }
             "BUY AAPL 100 shares" 1, succEngine) := by
  simp +decide [succCall, succEngine, make_decision, _parse_decision, kwBranch,
    strContains, containsList, isPrefixList, pyStrip, pyUpper, getSymbols,
    defaultSymbols, amountIn, firstNumber, firstNumAux, digitsVal, _update_history,
    trimTo, lastN, mkDecisionRecord, mkMarketRecord, mkPortfolioRecord,
    _calculate_total_portfolio_value, dictGetD, dictGet?]

theorem eval_succRun : runCalls {} [succCall] = .ok succEngine := by
  simp [runCalls, eval_succCall]

/-! ## Claim C1 -/

/-- **C1** — the code violates the claim at exactly the input the claim
singles out: with an explicitly empty symbols list and no market data, a
`make_decision` call whose generation raises does not return a
structured action; `_fallback_decision` raises `IndexError` at
`symbols[0]` (trading_demo.py line 507) and the exception propagates out
of `make_decision` (line 88). -/
theorem C1_fallback_raises :
    make_decision {} { symbols := some [] } (.error "LLM Call Error") "t0" =
      .error () ∧
    _fallback_decision { symbols := some [] } = .error () := ⟨rfl, rfl⟩

/-! ## Claim C2 -/

/-- **C2 counterexample** — the claim fails as stated: after `N = 1` call
of `make_decision` whose generation raises, all three buffers are empty,
not of length `min(N, cap) = 1`, because the fallback path returns
before `_update_history` runs (line 88). -/
theorem C2_counterexample :
    runCalls {} [{ state := {}, gen := .error "LLM Call Error", ts := "t0" }] =
      .ok { decision_count := 1 } ∧
    ({ decision_count := 1 } : EngineState).decision_history.length = 0 ∧
    ({ decision_count := 1 } : EngineState).market_history.length = 0 ∧
    ({ decision_count := 1 } : EngineState).portfolio_history.length = 0 ∧
    min 1 50 = 1 ∧ min 1 30 = 1 := ⟨rfl, rfl, rfl, rfl, rfl, rfl⟩

/-- **C2** (amended) — after any sequence of `make_decision` calls that
completes without raising, each history buffer is exactly the last
`min(A, cap)` appended records in call order, where `A` counts the
records appended by the calls whose generation succeeded (fallback calls
append nothing; `specRun` collects the appended records in order):
decision cap 50, market and portfolio caps 30; eviction drops only the
oldest entries (`lastN`). -/
theorem C2_history_caps (inputs : List CallInput) (E : EngineState)
    (h : runCalls {} inputs = .ok E) :
    ∃ t : SpecTrace, specRun {} inputs = .ok t ∧
      E.decision_history = lastN 50 t.decRecords ∧
      E.market_history = lastN 30 t.mktRecords ∧
      E.portfolio_history = lastN 30 t.pfRecords ∧
      E.decision_history.length = min t.decRecords.length 50 ∧
      E.market_history.length = min t.mktRecords.length 30 ∧
      E.portfolio_history.length = min t.pfRecords.length 30 ∧
      E.decision_history.length ≤ 50 ∧
      E.market_history.length ≤ 30 ∧
      E.portfolio_history.length ≤ 30 := by
  have hb := runCalls_toEngine inputs {}
  have h0 : ({} : EngineState) = SpecTrace.toEngine {} := rfl
  rw [← h0] at hb
  rw [hb] at h
  cases hs : specRun {} inputs with
  | error e => rw [hs] at h; simp [Except.map] at h
  | ok t =>
    rw [hs] at h
    have hE : E = SpecTrace.toEngine t := by
      simpa [Except.map, eq_comm] using h
    subst hE
    refine ⟨t, rfl, rfl, rfl, rfl, lastN_length _ _, lastN_length _ _,
      lastN_length _ _, ?_, ?_, ?_⟩ <;>
      simp [SpecTrace.toEngine, lastN_length]

/-- **C2 witness** — the amended theorem applied to one successful call. -/
theorem C2_witness :
    runCalls {} [succCall] = .ok succEngine ∧
    (∃ t : SpecTrace, specRun {} [succCall] = .ok t ∧
      succEngine.decision_history = lastN 50 t.decRecords ∧
      succEngine.market_history = lastN 30 t.mktRecords ∧
      succEngine.portfolio_history = lastN 30 t.pfRecords ∧
      succEngine.decision_history.length = min t.decRecords.length 50 ∧
      succEngine.market_history.length = min t.mktRecords.length 30 ∧
      succEngine.portfolio_history.length = min t.pfRecords.length 30 ∧
      succEngine.decision_history.length ≤ 50 ∧
      succEngine.market_history.length ≤ 30 ∧
      succEngine.portfolio_history.length ≤ 30) :=
  ⟨eval_succRun, C2_history_caps [succCall] succEngine eval_succRun⟩

/-! ## Claim C4 -/

/-- **C4** — with a generation service that raises, symbol universe
`["AAPL"]`, a market snapshot for AAPL with open 100 and close 105, and
no technical indicators, `make_decision` returns BUY AAPL with
amount 100 (and, this being the fallback path, updates no history).
In the scoring scan AAPL gets buy score 0.3 = sell score 0.3 (RSI
defaults to 50, both MAs to 0), neither clears the threshold, and the
momentum fallback buys the sole / largest-gain symbol. -/
theorem C4_end_to_end :
    make_decision {}
      { symbols := some ["AAPL"],
        market_data := [("AAPL",
          [("open", 100), ("high", 106), ("low", 99), ("close", 105),
           ("volume", 1000)])] }
      (.error "backend down") "t"
      = .ok (.fallback { action := "BUY", symbol := "AAPL", amount := 100 },
             { decision_count := 1 }) := by
  simp +decide [make_decision, _fallback_decision, fallbackScoreLoop, indicatorTriple,
    symScores, buyScore, sellScore, ScoreAcc.update, ScoreAcc.updateBuy,
    ScoreAcc.updateSell, dictGetD, dictGet?, dictKeys, pyMaxBy,
    closeMinusOpen, getSymbols, defaultSymbols]
  norm_num

/-! ## Claim C7 -/

/-- **C7 counterexample** — the claim fails as stated: a call taking the
deterministic fallback (generation raised) increments the decision
counter but appends no record to any of the three buffers. -/
theorem C7_counterexample :
    make_decision {} {} (.error "LLM Call Error") "t0" =
      .ok (.fallback { action := "BUY", symbol := "AAPL", amount := 100 },
           { decision_count := 1 }) ∧
    ({ decision_count := 1 } : EngineState).decision_history = [] ∧
    ({ decision_count := 1 } : EngineState).market_history = [] ∧
    ({ decision_count := 1 } : EngineState).portfolio_history = [] :=
  ⟨rfl, rfl, rfl, rfl⟩

/-- **C7** (amended) — every `make_decision` call that returns increments
the internal decision counter by one; a call whose generation succeeded
appends exactly one record to each of the three buffers (then trims to
the caps), while a fallback call (generation raised) appends nothing. -/
theorem C7_call_effects (E : EngineState) (st : TradingState) (gen : GenOutcome)
    (ts : String) (r : MakeDecisionResult) (E1 : EngineState)
    (h : make_decision E st gen ts = .ok (r, E1)) :
    E1.decision_count = E.decision_count + 1 ∧
    (∀ msg, gen = .error msg →
      E1.decision_history = E.decision_history ∧
      E1.market_history = E.market_history ∧
      E1.portfolio_history = E.portfolio_history) ∧
    (∀ text, gen = .ok text →
      ∃ d, _parse_decision text st = .ok d ∧
        r = .normal d text (E.decision_count + 1) ∧
        E1.decision_history =
          lastN 50 (E.decision_history ++
            [mkDecisionRecord (E.decision_count + 1) ts st d text]) ∧
        E1.market_history =
          lastN 30 (E.market_history ++ [mkMarketRecord (E.decision_count + 1) st]) ∧
        E1.portfolio_history =
          lastN 30 (E.portfolio_history ++
            [mkPortfolioRecord (E.decision_count + 1) st]) ∧
        E1.decision_history.length = min (E.decision_history.length + 1) 50 ∧
        E1.market_history.length = min (E.market_history.length + 1) 30 ∧
        E1.portfolio_history.length = min (E.portfolio_history.length + 1) 30) := by
  unfold make_decision at h
  cases hg : gen with
  | error msg =>
    rw [hg] at h
    simp only at h
    cases hf : _fallback_decision st with
    | error e => rw [hf] at h; simp at h
    | ok d =>
      rw [hf] at h
      simp only [Except.ok.injEq, Prod.mk.injEq] at h
      obtain ⟨hr, hE⟩ := h
      refine ⟨by rw [← hE], fun m hm => ?_, fun text ht => by simp at ht⟩
      rw [← hE]
      exact ⟨rfl, rfl, rfl⟩
  | ok text =>
    rw [hg] at h
    simp only at h
    cases hp : _parse_decision text st with
    | error e => rw [hp] at h; simp at h
    | ok d =>
      rw [hp] at h
      simp only [Except.ok.injEq, Prod.mk.injEq] at h
      obtain ⟨hr, hE⟩ := h
      have hfields :
          E1.decision_count = E.decision_count + 1 ∧
          E1.decision_history =
            lastN 50 (E.decision_history ++
              [mkDecisionRecord (E.decision_count + 1) ts st d text]) ∧
          E1.market_history =
            lastN 30 (E.market_history ++ [mkMarketRecord (E.decision_count + 1) st]) ∧
          E1.portfolio_history =
            lastN 30 (E.portfolio_history ++
              [mkPortfolioRecord (E.decision_count + 1) st]) := by
        rw [← hE]
        unfold _update_history
        refine ⟨rfl, ?_, ?_, ?_⟩ <;> simp [trimTo_eq_lastN]
      obtain ⟨hc, h1, h2, h3⟩ := hfields
      refine ⟨hc, fun m hm => by simp at hm, fun t2 ht2 => ?_⟩
      have htx : t2 = text := by injection ht2 with hh; exact hh.symm
      subst htx
      refine ⟨d, hp, by rw [← hr], h1, h2, h3, ?_, ?_, ?_⟩ <;>
        simp [h1, h2, h3, lastN_length]

/-- **C7 witness** — the amended theorem applied to one successful call
on a fresh engine. -/
theorem C7_witness :
    make_decision {} succCall.state succCall.gen succCall.ts =
      .ok (.normal { action := "BUY", symbol := "AAPL", amount := 100 }
             "BUY AAPL 100 shares" 1, succEngine) ∧
    (succEngine.decision_count = ({} : EngineState).decision_count + 1 ∧
     (∀ msg, succCall.gen = .error msg →
        succEngine.decision_history = ({} : EngineState).decision_history ∧
        succEngine.market_history = ({} : EngineState).market_history ∧
        succEngine.portfolio_history = ({} : EngineState).portfolio_history) ∧
     (∀ text, succCall.gen = .ok text →
        ∃ d, _parse_decision text succCall.state = .ok d ∧
          (MakeDecisionResult.normal
              { action := "BUY", symbol := "AAPL", amount := 100 }
              "BUY AAPL 100 shares" 1) =
            .normal d text (({} : EngineState).decision_count + 1) ∧
          succEngine.decision_history =
            lastN 50 (({} : EngineState).decision_history ++
              [mkDecisionRecord (({} : EngineState).decision_count + 1)
                succCall.ts succCall.state d text]) ∧
          succEngine.market_history =
            lastN 30 (({} : EngineState).market_history ++
              [mkMarketRecord (({} : EngineState).decision_count + 1)
                succCall.state]) ∧
          succEngine.portfolio_history =
            lastN 30 (({} : EngineState).portfolio_history ++
              [mkPortfolioRecord (({} : EngineState).decision_count + 1)
                succCall.state]) ∧
          succEngine.decision_history.length =
            min (({} : EngineState).decision_history.length + 1) 50 ∧
          succEngine.market_history.length =
            min (({} : EngineState).market_history.length + 1) 30 ∧
          succEngine.portfolio_history.length =
            min (({} : EngineState).portfolio_history.length + 1) 30)) :=
  ⟨eval_succCall,
   C7_call_effects {} succCall.state succCall.gen succCall.ts _ succEngine
     eval_succCall⟩

/-! ## Claim C5 -/

theorem calc_value_foldl (md : Dict StockData) (ps : Dict ℚ) (acc : ℚ) :
    (ps.foldl
      (fun acc p =>
        match dictGet? md p.1 with
        | some sd =>
          match dictGet? sd "close" with
          | some c => acc + p.2 * c
          | none => acc
        | none => acc) acc)
      = acc +
        (ps.map
          (fun p => p.2 * dictGetD ((dictGet? md p.1).getD []) "close" 0)).sum := by
  induction ps generalizing acc with
  | nil => simp
  | cons p ps ih =>
    simp only [List.foldl_cons, List.map_cons, List.sum_cons]
    cases h1 : dictGet? md p.1 with
    | none =>
      simp only [h1]
      rw [ih acc]
      simp [dictGetD, dictGet?]
    | some sd =>
      cases h2 : dictGet? sd "close" with
      | none =>
        simp only [h1, h2]
        rw [ih acc]
        simp [dictGetD, h2]
      | some c =>
        simp only [h1, h2]
        rw [ih (acc + p.2 * c)]
        simp [dictGetD, h2]
        ring

/-- **C7** is above; **C5** — the portfolio total value is cash plus the
sum, over the held positions, of quantity times the symbol's close
price, where a position whose symbol is absent from the market snapshot
(or whose snapshot record has no close field) contributes zero instead
of raising.  In particular cash 1000 with 10 shares of X values 1050
when X closes at 5, and 1000 when X is absent from the snapshot. -/
theorem C5_portfolio_value :
    (∀ st : TradingState,
      _calculate_total_portfolio_value st =
        st.portfolio.cash +
          (st.portfolio.positions.map
            (fun p =>
              p.2 * dictGetD ((dictGet? st.market_data p.1).getD []) "close" 0)).sum) ∧
    _calculate_total_portfolio_value
      { portfolio := { cash := 1000, positions := [("X", 10)] },
        market_data := [("X", [("close", 5)])] } = 1050 ∧
    _calculate_total_portfolio_value
      { portfolio := { cash := 1000, positions := [("X", 10)] },
        market_data := [] } = 1000 := by
  have hgen : ∀ st : TradingState,
      _calculate_total_portfolio_value st =
        st.portfolio.cash +
          (st.portfolio.positions.map
            (fun p =>
              p.2 * dictGetD ((dictGet? st.market_data p.1).getD []) "close" 0)).sum := by
    intro st
    unfold _calculate_total_portfolio_value
    rw [calc_value_foldl]
    ring
  refine ⟨hgen, ?_, ?_⟩ <;>
    · rw [hgen]
      norm_num [dictGetD, dictGet?]

/-! ## Claim C3 -/

/-- **C3 counterexample** — the claim fails as stated: the configured
Chinese sell keyword 卖出 is checked (lines 360-373) before the literal
BUY token (lines 379-390), so a text containing a buy-intent marker (the
literal token BUY) together with a known symbol still parses as SELL
when 卖出 also appears. -/
theorem C3_counterexample :
    strContains (pyUpper (pyStrip "卖出 AAPL, but BUY AAPL 50 shares")) "BUY" = true ∧
    strContains (pyUpper (pyStrip "卖出 AAPL, but BUY AAPL 50 shares")) "AAPL" = true ∧
    _parse_decision "卖出 AAPL, but BUY AAPL 50 shares" {} =
      .ok { action := "SELL", symbol := "AAPL", amount := 50 } := by
  refine ⟨by decide, by decide, ?_⟩
  simp +decide [_parse_decision, kwBranch, strContains, containsList, isPrefixList,
    pyStrip, pyUpper, getSymbols, defaultSymbols, amountIn, firstNumber, firstNumAux,
    digitsVal]

/-- **C3** (amended) — parsing priority: (1) when the text contains the
configured buy keyword 买入 together with a known symbol, the parsed
action is BUY for the first-listed matching symbol, regardless of any
sell keyword appearing in the same text; (2) when the buy marker is only
the literal token BUY (case-insensitive via upper-casing) together with a
known symbol, the same holds provided neither Chinese-keyword branch
fires first (in particular, a 卖出 co-occurring with a known symbol takes
precedence and yields SELL instead).  In both cases the amount is the
first numeric substring of the stripped text, defaulting to 100. -/
theorem C3_parse_priority (r : String) (st : TradingState) :
    (∀ sym, strContains (pyStrip r) "买入" = true →
      (getSymbols st).find? (fun s => strContains (pyStrip r) s) = some sym →
      _parse_decision r st =
        .ok { action := "BUY", symbol := sym,
              amount := (firstNumber (pyStrip r)).getD 100 }) ∧
    (∀ sym,
      kwBranch (pyStrip r) (pyStrip r) (getSymbols st) "买入" "BUY" = none →
      kwBranch (pyStrip r) (pyStrip r) (getSymbols st) "卖出" "SELL" = none →
      strContains (pyUpper (pyStrip r)) "BUY" = true →
      (getSymbols st).find? (fun s => strContains (pyUpper (pyStrip r)) s) = some sym →
      _parse_decision r st =
        .ok { action := "BUY", symbol := sym,
              amount := (firstNumber (pyStrip r)).getD 100 }) := by
  constructor
  · intro sym h1 h2
    have hkb : kwBranch (pyStrip r) (pyStrip r) (getSymbols st) "买入" "BUY" =
        some { action := "BUY", symbol := sym,
               amount := (firstNumber (pyStrip r)).getD 100 } := by
      unfold kwBranch
      rw [if_pos h1, h2]
      rfl
    simp only [_parse_decision, hkb]
  · intro sym hb hs h3 h4
    have hkb : kwBranch (pyUpper (pyStrip r)) (pyStrip r) (getSymbols st) "BUY" "BUY" =
        some { action := "BUY", symbol := sym,
               amount := (firstNumber (pyStrip r)).getD 100 } := by
      unfold kwBranch
      rw [if_pos h3, h4]
      rfl
    simp only [_parse_decision, hb, hs, hkb]

/-- **C3 witness** — both halves of the amended theorem at concrete
inputs: a text with 买入, a symbol and a later 卖出 still parses BUY; a
keyword-free English text with the BUY token parses BUY for the
first-listed matching symbol. -/
theorem C3_witness :
    (strContains (pyStrip "买入 AAPL 100 股，然后卖出 AAPL") "买入" = true ∧
     (getSymbols {}).find?
        (fun s => strContains (pyStrip "买入 AAPL 100 股，然后卖出 AAPL") s) =
       some "AAPL" ∧
     _parse_decision "买入 AAPL 100 股，然后卖出 AAPL" {} =
       .ok { action := "BUY", symbol := "AAPL",
             amount := (firstNumber (pyStrip "买入 AAPL 100 股，然后卖出 AAPL")).getD 100 }) ∧
    (strContains (pyUpper (pyStrip "please BUY MSFT 20 now")) "BUY" = true ∧
     (getSymbols {}).find?
        (fun s => strContains (pyUpper (pyStrip "please BUY MSFT 20 now")) s) =
       some "MSFT" ∧
     _parse_decision "please BUY MSFT 20 now" {} =
       .ok { action := "BUY", symbol := "MSFT",
             amount := (firstNumber (pyStrip "please BUY MSFT 20 now")).getD 100 }) :=
  ⟨⟨by decide, by decide,
    (C3_parse_priority "买入 AAPL 100 股，然后卖出 AAPL" {}).1 "AAPL"
      (by decide) (by decide)⟩,
   ⟨by decide, by decide,
    (C3_parse_priority "please BUY MSFT 20 now" {}).2 "MSFT"
      (by decide) (by decide) (by decide) (by decide)⟩⟩

/-! ## Claim C8 -/

/-- **C8** — the score-based fallback cascade is deterministic: it reads
only the state, never the response text, so for one state any two
response texts neither of which fires an explicit keyword branch parse to
the same decision — in particular two invocations on identical state
input (identical market data, indicators and symbol list) return the same
action tag, symbol and amount.  (`_fallback_decision`, the other entry to
the cascade, is a pure function of the state, so its determinism across
invocations is definitional.) -/
theorem C8_scoring_deterministic (st : TradingState) (r1 r2 : String)
    (h1a : kwBranch (pyStrip r1) (pyStrip r1) (getSymbols st) "买入" "BUY" = none)
    (h1b : kwBranch (pyStrip r1) (pyStrip r1) (getSymbols st) "卖出" "SELL" = none)
    (h1c : kwBranch (pyUpper (pyStrip r1)) (pyStrip r1) (getSymbols st) "BUY" "BUY" = none)
    (h1d : kwBranch (pyUpper (pyStrip r1)) (pyStrip r1) (getSymbols st) "SELL" "SELL" = none)
    (h2a : kwBranch (pyStrip r2) (pyStrip r2) (getSymbols st) "买入" "BUY" = none)
    (h2b : kwBranch (pyStrip r2) (pyStrip r2) (getSymbols st) "卖出" "SELL" = none)
    (h2c : kwBranch (pyUpper (pyStrip r2)) (pyStrip r2) (getSymbols st) "BUY" "BUY" = none)
    (h2d : kwBranch (pyUpper (pyStrip r2)) (pyStrip r2) (getSymbols st) "SELL" "SELL" = none) :
    _parse_decision r1 st = _parse_decision r2 st := by
  simp only [_parse_decision, h1a, h1b, h1c, h1d, h2a, h2b, h2c, h2d]

/-- **C8 witness** — two keyword-free texts on the default state parse
identically. -/
theorem C8_witness :
    kwBranch (pyStrip "thinking very hard") (pyStrip "thinking very hard")
      (getSymbols {}) "买入" "BUY" = none ∧
    kwBranch (pyStrip "no comment") (pyStrip "no comment")
      (getSymbols {}) "买入" "BUY" = none ∧
    _parse_decision "thinking very hard" {} = _parse_decision "no comment" {} :=
  ⟨by decide, by decide,
   C8_scoring_deterministic {} "thinking very hard" "no comment"
     (by decide) (by decide) (by decide) (by decide)
     (by decide) (by decide) (by decide) (by decide)⟩

/-! ## Claim C6 -/

theorem firstNumAux_nonneg : ∀ (cs : List Char) (q : ℚ),
    firstNumAux cs = some q → 0 ≤ q := by
  intro cs
  induction cs with
  | nil => intro q h; simp [firstNumAux] at h
  | cons c rest ih =>
    intro q h
    unfold firstNumAux at h
    split at h
    · split at h
      · split at h
        · injection h with h
          subst h
          positivity
        · injection h with h
          subst h
          positivity
      · injection h with h
        subst h
        positivity
    · exact ih q h

theorem amountIn_nonneg (resp : String) : 0 ≤ amountIn resp := by
  unfold amountIn firstNumber
  cases h : firstNumAux resp.data with
  | none => norm_num
  | some q => simpa using firstNumAux_nonneg _ q h

theorem kwBranch_some (searchIn resp : String) (symbols : List String)
    (kw act : String) (d : Decision)
    (h : kwBranch searchIn resp symbols kw act = some d) :
    d.action = act ∧ d.symbol ∈ symbols ∧ d.amount = amountIn resp := by
  unfold kwBranch at h
  split at h
  · cases hf : symbols.find? (fun sym => strContains searchIn sym) with
    | none => rw [hf] at h; exact Option.noConfusion h
    | some s =>
      rw [hf] at h
      injection h with h
      subst h
      exact ⟨rfl, List.mem_of_find?_eq_some hf, rfl⟩
  · exact Option.noConfusion h

theorem ScoreAcc_update_inv (S : List String) (acc : ScoreAcc) (sym : String)
    (b s : ℚ) (hsym : sym ∈ S) (hi : ScoreInv S acc) :
    ScoreInv S (acc.update sym b s) := by
  obtain ⟨h1, h2, h3, h4⟩ := hi
  unfold ScoreAcc.update ScoreAcc.updateBuy ScoreAcc.updateSell
  split <;> split <;>
    exact ⟨by simp_all, by intro x hx; simp_all, by simp_all, by intro x hx; simp_all⟩

theorem parseScoreLoop_inv (st : TradingState) (S : List String) :
    ∀ (syms : List String), (∀ x ∈ syms, x ∈ S) →
    ∀ (acc acc' : ScoreAcc), parseScoreLoop st syms acc = .ok acc' →
      ScoreInv S acc → ScoreInv S acc' := by
  intro syms
  induction syms with
  | nil =>
    intro _ acc acc' h hi
    unfold parseScoreLoop at h
    injection h with h
    subst h
    exact hi
  | cons sym rest ih =>
    intro hsub acc acc' h hi
    unfold parseScoreLoop at h
    split at h
    · exact ih (fun x hx => hsub x (by simp [hx])) acc acc' h hi
    · split at h
      · exact Except.noConfusion h
      · exact ih (fun x hx => hsub x (by simp [hx])) _ acc' h
          (ScoreAcc_update_inv S acc sym _ _ (hsub sym (by simp)) hi)

theorem foldl_max_mem (f : String → ℚ) :
    ∀ (l : List String) (b : String) (full : List String), b ∈ full →
      (∀ y ∈ l, y ∈ full) →
      l.foldl (fun best y => if f y > f best then y else best) b ∈ full := by
  intro l
  induction l with
  | nil => intro b full hb _; exact hb
  | cons y l ih =>
    intro b full hb hl
    simp only [List.foldl_cons]
    apply ih
    · split
      · exact hl y (by simp)
      · exact hb
    · intro z hz
      exact hl z (by simp [hz])

theorem pyMaxBy_mem (xs : List String) (f : String → ℚ) (h : xs ≠ []) :
    pyMaxBy xs f ∈ xs := by
  cases xs with
  | nil => exact absurd rfl h
  | cons x rest =>
    unfold pyMaxBy
    exact foldl_max_mem f rest x (x :: rest) (by simp) (fun y hy => by simp [hy])

/-- Every decision `_parse_decision` returns has action BUY or SELL, a
nonnegative amount, and a symbol from the configured list, the
market-data key set, or the hardcoded AAPL. -/
theorem parse_decision_ok (r : String) (st : TradingState) (d : Decision)
    (h : _parse_decision r st = .ok d) :
    (d.action = "BUY" ∨ d.action = "SELL") ∧ 0 ≤ d.amount ∧
    (d.symbol ∈ getSymbols st ∨ d.symbol ∈ dictKeys st.market_data ∨
      d.symbol = "AAPL") := by
  simp only [_parse_decision] at h
  split at h
  · next d1 heq =>
    injection h with h
    subst h
    obtain ⟨ha, hm, hv⟩ := kwBranch_some _ _ _ _ _ _ heq
    exact ⟨Or.inl ha, hv ▸ amountIn_nonneg _, Or.inl hm⟩
  · split at h
    · next d1 heq =>
      injection h with h
      subst h
      obtain ⟨ha, hm, hv⟩ := kwBranch_some _ _ _ _ _ _ heq
      exact ⟨Or.inr ha, hv ▸ amountIn_nonneg _, Or.inl hm⟩
    · split at h
      · next d1 heq =>
        injection h with h
        subst h
        obtain ⟨ha, hm, hv⟩ := kwBranch_some _ _ _ _ _ _ heq
        exact ⟨Or.inl ha, hv ▸ amountIn_nonneg _, Or.inl hm⟩
      · split at h
        · next d1 heq =>
          injection h with h
          subst h
          obtain ⟨ha, hm, hv⟩ := kwBranch_some _ _ _ _ _ _ heq
          exact ⟨Or.inr ha, hv ▸ amountIn_nonneg _, Or.inl hm⟩
        · split at h
          · split at h
            · next s0 tail heq =>
              injection h with h
              subst h
              exact ⟨Or.inl rfl, by norm_num, Or.inl (by rw [heq]; simp)⟩
            · injection h with h
              subst h
              exact ⟨Or.inl rfl, by norm_num, Or.inr (Or.inr rfl)⟩
          · next hne =>
            split at h
            · exact Except.noConfusion h
            · next acc heq =>
              have hinv : ScoreInv (getSymbols st) acc :=
                parseScoreLoop_inv st (getSymbols st) (getSymbols st)
                  (fun x hx => hx) _ acc heq
                  ⟨fun _ => rfl, fun x hx => Option.noConfusion hx,
                   fun _ => rfl, fun x hx => Option.noConfusion hx⟩
              split at h
              · next hcond =>
                injection h with h
                subst h
                cases hsym : acc.bestBuySymbol with
                | none =>
                  exfalso
                  have hs1 := hinv.1 hsym
                  rw [hs1] at hcond
                  have h2 := hcond.2
                  norm_num at h2
                | some x =>
                  refine ⟨Or.inl rfl, by norm_num, Or.inl ?_⟩
                  simpa [hsym] using hinv.2.1 x hsym
              · split at h
                · next hcond =>
                  injection h with h
                  subst h
                  cases hsym : acc.bestSellSymbol with
                  | none =>
                    exfalso
                    have hs3 := hinv.2.2.1 hsym
                    rw [hs3] at hcond
                    norm_num at hcond
                  | some x =>
                    refine ⟨Or.inr rfl, by norm_num, Or.inl ?_⟩
                    simpa [hsym] using hinv.2.2.2 x hsym
                · injection h with h
                  subst h
                  refine ⟨Or.inl rfl, by norm_num, Or.inr (Or.inl ?_)⟩
                  apply pyMaxBy_mem
                  simp only [dictKeys]
                  intro hmap
                  rw [List.map_eq_nil_iff] at hmap
                  simp [hmap] at hne

/-- **C6 counterexample** — three concrete runs violate the claim as
stated: (a) the text `"BUY AAPL 0 shares"` appends a record with amount
0, not strictly positive; (b) with configured symbols `["AAPL"]` but a
market snapshot keyed `ZZZ`, a keyword-free text appends a record for
`ZZZ`, a symbol outside the configured set (momentum fallback, line 473);
(c) with configured symbols `[""]`, `买入 7` appends a record whose
symbol is the empty string. -/
theorem C6_counterexample :
    (make_decision {} {} (.ok "BUY AAPL 0 shares") "ta" =
      .ok (.normal { action := "BUY", symbol := "AAPL", amount := 0 }
             "BUY AAPL 0 shares" 1,
           { decision_count := 1,
             decision_history :=
               [{ step := 1, timestamp := "ta",
                  decision := { action := "BUY", symbol := "AAPL", amount := 0 },
                  llm_response := "BUY AAPL 0 shares", market_data := [],
                  portfolio := {}, technical_indicators := [],
                  detailed_history := [] }],
             market_history := [{ step := 1, market_data := [], detailed_history := [] }],
             portfolio_history := [{ step := 1, portfolio := {}, total_value := 0 }] }) ∧
     ¬ ((0 : ℚ) > 0)) ∧
    (make_decision {}
        { symbols := some ["AAPL"],
          market_data := [("ZZZ", [("close", 2), ("open", 1)])] }
        (.ok "hold steady") "tb" =
      .ok (.normal { action := "BUY", symbol := "ZZZ", amount := 100 }
             "hold steady" 1,
           { decision_count := 1,
             decision_history :=
               [{ step := 1, timestamp := "tb",
                  decision := { action := "BUY", symbol := "ZZZ", amount := 100 },
                  llm_response := "hold steady",
                  market_data := [("ZZZ", [("close", 2), ("open", 1)])],
                  portfolio := {}, technical_indicators := [],
                  detailed_history := [] }],
             market_history :=
               [{ step := 1, market_data := [("ZZZ", [("close", 2), ("open", 1)])],
                  detailed_history := [] }],
             portfolio_history := [{ step := 1, portfolio := {}, total_value := 0 }] }) ∧
     "ZZZ" ∉ getSymbols
        { symbols := some ["AAPL"],
          market_data := [("ZZZ", [("close", 2), ("open", 1)])] }) ∧
    (make_decision {} { symbols := some [""] } (.ok "买入 7") "tc" =
      .ok (.normal { action := "BUY", symbol := "", amount := 7 } "买入 7" 1,
           { decision_count := 1,
             decision_history :=
               [{ step := 1, timestamp := "tc",
                  decision := { action := "BUY", symbol := "", amount := 7 },
                  llm_response := "买入 7", market_data := [],
                  portfolio := {}, technical_indicators := [],
                  detailed_history := [] }],
             market_history := [{ step := 1, market_data := [], detailed_history := [] }],
             portfolio_history := [{ step := 1, portfolio := {}, total_value := 0 }] }) ∧
     ("" : String).length = 0) := by
  refine ⟨⟨?_, by norm_num⟩, ⟨?_, by decide⟩, ⟨?_, rfl⟩⟩
  · simp +decide [make_decision, _parse_decision, kwBranch, strContains,
      containsList, isPrefixList, pyStrip, pyUpper, getSymbols, defaultSymbols,
      amountIn, firstNumber, firstNumAux, digitsVal, _update_history, trimTo, lastN,
      mkDecisionRecord, mkMarketRecord, mkPortfolioRecord,
      _calculate_total_portfolio_value, dictGetD, dictGet?, dictKeys, List.lookup,
      parseScoreLoop, symScores, indicatorTriple, buyScore, sellScore,
      ScoreAcc.update, ScoreAcc.updateBuy, ScoreAcc.updateSell, pyMaxBy,
      closeMinusOpen]
  · simp +decide [make_decision, _parse_decision, kwBranch, strContains,
      containsList, isPrefixList, pyStrip, pyUpper, getSymbols, defaultSymbols,
      amountIn, firstNumber, firstNumAux, digitsVal, _update_history, trimTo, lastN,
      mkDecisionRecord, mkMarketRecord, mkPortfolioRecord,
      _calculate_total_portfolio_value, dictGetD, dictGet?, dictKeys, List.lookup,
      parseScoreLoop, symScores, indicatorTriple, buyScore, sellScore,
      ScoreAcc.update, ScoreAcc.updateBuy, ScoreAcc.updateSell, pyMaxBy,
      closeMinusOpen]
    norm_num
  · simp +decide [make_decision, _parse_decision, kwBranch, strContains,
      containsList, isPrefixList, pyStrip, pyUpper, getSymbols, defaultSymbols,
      amountIn, firstNumber, firstNumAux, digitsVal, _update_history, trimTo, lastN,
      mkDecisionRecord, mkMarketRecord, mkPortfolioRecord,
      _calculate_total_portfolio_value, dictGetD, dictGet?, dictKeys, List.lookup,
      parseScoreLoop, symScores, indicatorTriple, buyScore, sellScore,
      ScoreAcc.update, ScoreAcc.updateBuy, ScoreAcc.updateSell, pyMaxBy,
      closeMinusOpen]

/-- **C6** (amended) — every record a `make_decision` call appends to the
decision history has an action that is BUY or SELL, a nonnegative amount
(the first numeric substring of the response, possibly 0, or the default
100), and a symbol drawn from the configured symbol list, from the
market-data key set (momentum fallback), or the hardcoded fallback
"AAPL". -/
theorem C6_record_invariant (E : EngineState) (st : TradingState) (gen : GenOutcome)
    (ts : String) (r : MakeDecisionResult) (E1 : EngineState)
    (hrun : make_decision E st gen ts = .ok (r, E1)) :
    ∀ rec ∈ E1.decision_history,
      rec ∈ E.decision_history ∨
        ((rec.decision.action = "BUY" ∨ rec.decision.action = "SELL") ∧
         0 ≤ rec.decision.amount ∧
         (rec.decision.symbol ∈ getSymbols st ∨
          rec.decision.symbol ∈ dictKeys st.market_data ∨
          rec.decision.symbol = "AAPL")) := by
  intro rec hrec
  unfold make_decision at hrun
  cases gen with
  | error msg =>
    simp only at hrun
    cases hf : _fallback_decision st with
    | error e => rw [hf] at hrun; exact Except.noConfusion hrun
    | ok d =>
      rw [hf] at hrun
      simp only [Except.ok.injEq, Prod.mk.injEq] at hrun
      obtain ⟨hr, hE⟩ := hrun
      rw [← hE] at hrec
      exact Or.inl hrec
  | ok text =>
    simp only at hrun
    cases hp : _parse_decision text st with
    | error e => rw [hp] at hrun; exact Except.noConfusion hrun
    | ok d =>
      rw [hp] at hrun
      simp only [Except.ok.injEq, Prod.mk.injEq] at hrun
      obtain ⟨hr, hE⟩ := hrun
      rw [← hE] at hrec
      unfold _update_history at hrec
      simp only [trimTo_eq_lastN] at hrec
      have hmem := mem_of_mem_lastN hrec
      rcases List.mem_append.mp hmem with hold | hnew
      · exact Or.inl hold
      · right
        have hrec0 : rec = mkDecisionRecord (E.decision_count + 1) ts st d text :=
          List.mem_singleton.mp hnew
        subst hrec0
        exact parse_decision_ok text st d hp

/-- **C6 witness** — the amended record invariant applied to the record
appended by one successful call. -/
theorem C6_witness :
    make_decision {} succCall.state succCall.gen succCall.ts =
      .ok (.normal { action := "BUY", symbol := "AAPL", amount := 100 }
             "BUY AAPL 100 shares" 1, succEngine) ∧
    ({ step := 1, timestamp := "t0",
       decision := { action := "BUY", symbol := "AAPL", amount := 100 },
       llm_response := "BUY AAPL 100 shares", market_data := [], portfolio := {},
       technical_indicators := [], detailed_history := [] } : DecisionRecord) ∈
      succEngine.decision_history ∧
    (({ step := 1, timestamp := "t0",
        decision := { action := "BUY", symbol := "AAPL", amount := 100 },
        llm_response := "BUY AAPL 100 shares", market_data := [], portfolio := {},
        technical_indicators := [], detailed_history := [] } : DecisionRecord) ∈
        ({} : EngineState).decision_history ∨
      ((({ action := "BUY", symbol := "AAPL", amount := (100:ℚ) } : Decision).action = "BUY" ∨
        ({ action := "BUY", symbol := "AAPL", amount := (100:ℚ) } : Decision).action = "SELL") ∧
       0 ≤ ({ action := "BUY", symbol := "AAPL", amount := (100:ℚ) } : Decision).amount ∧
       (({ action := "BUY", symbol := "AAPL", amount := (100:ℚ) } : Decision).symbol ∈
          getSymbols succCall.state ∨
        ({ action := "BUY", symbol := "AAPL", amount := (100:ℚ) } : Decision).symbol ∈
          dictKeys succCall.state.market_data ∨
        ({ action := "BUY", symbol := "AAPL", amount := (100:ℚ) } : Decision).symbol =
          "AAPL"))) :=
  ⟨eval_succCall, by simp [succEngine],
   C6_record_invariant {} succCall.state succCall.gen succCall.ts _ succEngine
     eval_succCall _ (by simp [succEngine])⟩

/-! ## Claim C9 -/

theorem dictGet?_append {α : Type} (xs ys : Dict α) (k : String) :
    dictGet? (xs ++ ys) k = (dictGet? xs k).or (dictGet? ys k) := by
  induction xs with
  | nil => simp [dictGet?]
  | cons p xs ih =>
    obtain ⟨a, b⟩ := p
    by_cases h : k = a
    · subst h
      simp [dictGet?, List.lookup]
    · have hba : (k == a) = false := beq_eq_false_iff_ne.mpr h
      simpa [dictGet?, List.lookup, hba] using ih

theorem dictGet?_mapMerge {α : Type} (a b : Dict α) (k : String) :
    dictGet? (a.map (fun p =>
        match dictGet? b p.1 with
        | some v => (p.1, v)
        | none => p)) k =
      match dictGet? a k with
      | some w => some (match dictGet? b k with | some v => v | none => w)
      | none => none := by
  induction a with
  | nil => simp [dictGet?]
  | cons p a ih =>
    obtain ⟨x, w⟩ := p
    by_cases h : k = x
    · subst h
      cases hb : dictGet? b k with
      | some v =>
        unfold dictGet? at hb
        simp [dictGet?, List.lookup, hb]
      | none =>
        unfold dictGet? at hb
        simp [dictGet?, List.lookup, hb]
    · have hba : (k == x) = false := beq_eq_false_iff_ne.mpr h
      cases hb : dictGet? b x with
      | some v =>
        unfold dictGet? at hb
        simpa [dictGet?, List.lookup, hb, hba] using ih
      | none =>
        unfold dictGet? at hb
        simpa [dictGet?, List.lookup, hb, hba] using ih

theorem dictGet?_filterNotIn {α : Type} (a b : Dict α) (k : String) :
    dictGet? (b.filter (fun p => ! dictHas a p.1)) k =
      if dictHas a k then none else dictGet? b k := by
  induction b with
  | nil => simp [dictGet?]
  | cons p b ih =>
    obtain ⟨x, v⟩ := p
    unfold dictGet? at ih ⊢
    by_cases h : k = x
    · subst h
      cases hx : dictHas a k with
      | true => simp [List.filter, hx, ih]
      | false => simp [List.filter, hx, List.lookup]
    · have hba : (k == x) = false := beq_eq_false_iff_ne.mpr h
      cases hx : dictHas a x with
      | true => simp [List.filter, hx, ih, List.lookup, hba]
      | false => simp [List.filter, hx, List.lookup, hba, ih]

/-- `{**a, **b}` looks up like `b` first, then `a`: the second dict's
bindings win on shared keys. -/
theorem dictMerge_lookup {α : Type} (a b : Dict α) (k : String) :
    dictGet? (dictMerge a b) k = (dictGet? b k).or (dictGet? a k) := by
  unfold dictMerge
  rw [dictGet?_append, dictGet?_mapMerge, dictGet?_filterNotIn]
  cases ha : dictGet? a k with
  | some w =>
    have hhas : dictHas a k = true := by simp [dictHas, ha]
    cases hb : dictGet? b k <;> simp [Option.or, hhas]
  | none =>
    have hhas : dictHas a k = false := by simp [dictHas, ha]
    cases hb : dictGet? b k <;> simp [Option.or, hhas, hb, ha]

/-- **C9** — `generate_for_node` raises exactly on an unregistered role
name; for a registered role the underlying LLM is invoked with
`{**node_config, **kwargs}`, whose lookup is the per-call argument when
present and the role configuration otherwise (call-time overrides
win). -/
theorem C9_generate_for_node (llm : String → Dict PVal → LLMResponse)
    (m : SharedLLMManager) (node_id prompt : String) (kwargs : Dict PVal)
    (now : ℚ) :
    (dictGet? m.registered_nodes node_id = Option.none →
      generate_for_node llm m node_id prompt kwargs now =
        .error ("节点 " ++ node_id ++ " 未注册")) ∧
    (∀ cfg rt, dictGet? m.registered_nodes node_id = some (cfg, rt) →
      (∃ m1, generate_for_node llm m node_id prompt kwargs now =
          .ok (addNodeInfo (llm prompt (dictMerge cfg kwargs)) node_id
                 (m.total_generations + 1), m1)) ∧
      (∀ k, dictGet? (dictMerge cfg kwargs) k =
        (dictGet? kwargs k).or (dictGet? cfg k))) := by
  constructor
  · intro h
    unfold generate_for_node
    rw [h]
  · intro cfg rt h
    refine ⟨⟨{ m with
        node_usage_stats := dictInsert m.node_usage_stats node_id
          { generation_count :=
              ((dictGet? m.node_usage_stats node_id).getD {}).generation_count + 1,
            last_used := some now,
            total_tokens :=
              ((dictGet? m.node_usage_stats node_id).getD {}).total_tokens +
                wordCount (llm prompt (dictMerge cfg kwargs)).text },
        total_generations := m.total_generations + 1 }, ?_⟩,
      fun k => dictMerge_lookup cfg kwargs k⟩
    simp only [generate_for_node, h]

/-- **C9 witness** — the theorem applied to a one-node manager: an
unregistered id raises, the registered node's per-call temperature
override wins over the configured one. -/
theorem C9_witness :
    dictGet? mgrW.registered_nodes "ghost" = Option.none ∧
    generate_for_node llmW mgrW "ghost" "p" [] 0 =
      .error ("节点 " ++ "ghost" ++ " 未注册") ∧
    dictGet? mgrW.registered_nodes "trading_decision" =
      some ([("role", PVal.str "expert"), ("temperature", PVal.str "from-config")],
            0) ∧
    (∃ m1, generate_for_node llmW mgrW "trading_decision" "p"
        [("temperature", PVal.str "override")] 0 =
      .ok (addNodeInfo
             (llmW "p" (dictMerge
               [("role", PVal.str "expert"), ("temperature", PVal.str "from-config")]
               [("temperature", PVal.str "override")]))
             "trading_decision" (mgrW.total_generations + 1), m1)) ∧
    (∀ k, dictGet? (dictMerge
        [("role", PVal.str "expert"), ("temperature", PVal.str "from-config")]
        [("temperature", PVal.str "override")]) k =
      (dictGet? [("temperature", PVal.str "override")] k).or
        (dictGet? [("role", PVal.str "expert"),
                   ("temperature", PVal.str "from-config")] k)) :=
  ⟨by decide,
   (C9_generate_for_node llmW mgrW "ghost" "p" [] 0).1 (by decide),
   by decide,
   ((C9_generate_for_node llmW mgrW "trading_decision" "p"
       [("temperature", PVal.str "override")] 0).2
     [("role", PVal.str "expert"), ("temperature", PVal.str "from-config")] 0
     (by decide)).1,
   ((C9_generate_for_node llmW mgrW "trading_decision" "p"
       [("temperature", PVal.str "override")] 0).2
     [("role", PVal.str "expert"), ("temperature", PVal.str "from-config")] 0
     (by decide)).2⟩

/-! ## Claim C10 -/

/-- **C10 counterexample** — the claim fails as stated: `generate` calls
`self.load_model()` before its `try` block (lines 345-346), and
`load_model` re-raises on failure (lines 318-320), so with the model
unloaded and loading failing the exception propagates to the caller
instead of being returned as an `LLMResponse`. -/
theorem C10_counterexample :
    hfEnvLoadErr.model_loaded = false ∧ hfEnvLoadErr.load_ok = false ∧
    hfGenerate hfEnvLoadErr "hello" [] = .error "OSError: model files missing" :=
  ⟨rfl, rfl, rfl⟩

/-- **C10** (amended) — provided the model is already loaded (or loading
succeeds), `HuggingFaceLLM.generate` is total at its interface: it
always returns an `LLMResponse`; on every internal failure path (empty
input, tokenization error, empty tokenization, generation error, empty
output shape, decode error) the returned response has confidence 0.0
(with the error recorded in its text/metadata), and on the success path
the confidence is the usual `min(0.95, 0.7 + 0.01·update_count)`. -/
theorem C10_hf_generate_total (env : HFEnv) (prompt : String) (kwargs : Dict PVal)
    (h : env.model_loaded = true ∨ env.load_ok = true) :
    (∃ r, hfGenerate env prompt kwargs = .ok r) ∧
    (∀ r, hfGenerate env prompt kwargs = .ok r →
      (hfFailurePath env prompt kwargs = true → r.confidence = 0) ∧
      (hfFailurePath env prompt kwargs = false →
        r.confidence =
          min (19/20 : ℚ) (7/10 + (env.update_count : ℚ) * (1/100)))) := by
  have hcond : ¬ (env.model_loaded = false ∧ env.load_ok = false) := by
    rcases h with h | h <;> simp [h]
  unfold hfGenerate hfFailurePath
  rw [if_neg hcond]
  by_cases h1 : pyStrip prompt = ""
  · simp only [h1, if_pos rfl, if_true]
    exact ⟨⟨_, rfl⟩, fun r hr => by
      injection hr with hr
      subst hr
      exact ⟨fun _ => rfl, fun hc => Bool.noConfusion hc⟩⟩
  · simp only [h1, if_false, ite_false]
    cases ht : env.tokenize (hfTruncate prompt) with
    | error e =>
      exact ⟨⟨_, rfl⟩, fun r hr => by
        injection hr with hr
        subst hr
        exact ⟨fun _ => rfl, fun hc => Bool.noConfusion hc⟩⟩
    | ok ntok =>
      by_cases h2 : ntok = 0
      · simp only [h2, if_pos rfl, if_true]
        exact ⟨⟨_, rfl⟩, fun r hr => by
          injection hr with hr
          subst hr
          exact ⟨fun _ => rfl, fun hc => Bool.noConfusion hc⟩⟩
      · simp only [h2, if_false, ite_false]
        cases hg : env.modelGenerate ntok (hfGenerationKwargs env kwargs ntok) with
        | error e =>
          exact ⟨⟨_, rfl⟩, fun r hr => by
            injection hr with hr
            subst hr
            exact ⟨fun _ => rfl, fun hc => Bool.noConfusion hc⟩⟩
        | ok pr =>
          obtain ⟨rows, cols⟩ := pr
          by_cases h3 : rows = 0 ∨ cols = 0
          · simp only [h3, if_pos h3, if_true]
            exact ⟨⟨_, rfl⟩, fun r hr => by
              injection hr with hr
              subst hr
              exact ⟨fun _ => rfl, fun hc => Bool.noConfusion hc⟩⟩
          · simp only [h3, if_false, ite_false]
            cases hd : env.decode with
            | error e =>
              exact ⟨⟨_, rfl⟩, fun r hr => by
                injection hr with hr
                subst hr
                exact ⟨fun _ => rfl, fun hc => Bool.noConfusion hc⟩⟩
            | ok txt =>
              exact ⟨⟨_, rfl⟩, fun r hr => by
                injection hr with hr
                subst hr
                exact ⟨fun hc => Bool.noConfusion hc, fun _ => rfl⟩⟩

/-- **C10 witness** — the amended theorem applied to a loaded environment
whose tokenizer raises: the call still returns a response, with
confidence 0. -/
theorem C10_witness :
    (hfEnvTokErr.model_loaded = true ∨ hfEnvTokErr.load_ok = true) ∧
    hfFailurePath hfEnvTokErr "hello" [] = true ∧
    (∃ r, hfGenerate hfEnvTokErr "hello" [] = .ok r) ∧
    (∀ r, hfGenerate hfEnvTokErr "hello" [] = .ok r →
      (hfFailurePath hfEnvTokErr "hello" [] = true → r.confidence = 0) ∧
      (hfFailurePath hfEnvTokErr "hello" [] = false →
        r.confidence =
          min (19/20 : ℚ) (7/10 + (hfEnvTokErr.update_count : ℚ) * (1/100)))) :=
  ⟨Or.inl rfl, rfl,
   (C10_hf_generate_total hfEnvTokErr "hello" [] (Or.inl rfl)).1,
   (C10_hf_generate_total hfEnvTokErr "hello" [] (Or.inl rfl)).2⟩
